import Mathlib

set_option maxRecDepth 200000

/-!
Verification development for the `ts_pre_commit_conf` repository.

The Lean definitions below are a shallow embedding of the pure core of
`python/lsst/ts/pre_commit_conf/pre_commit_hooks.py` and
`python/lsst/ts/pre_commit_conf/pre_commit_conf_generator.py`:

* Python strings are Lean `String`s (substring containment is stated as
  `<:+:` on the underlying `Char` lists).
* The registry dict (insertion ordered) is an association `List`.
* `types.SimpleNamespace` objects carrying dynamically named boolean
  attributes (`no_mypy`, `with_clang_format`, ...) become an `Args`
  structure holding an association list of flag name to value; `getattr`
  with a default and `setattr` become `getattrB` and `setattrB`.
* Reading or writing a file becomes passing the file's contents
  explicitly; `sys.exit` / raised exceptions become outcome values.
* The YAML documents involved are flat `name: bool` mappings, embedded as
  association lists from key to a `ConfigValue`.
-/

namespace TsPreCommitConf

/-- Embeds `RuleType` from pre_commit_hooks.py: the three-way rule
classification of a pre-commit hook. -/
inductive RuleType where
  | MANDATORY
  | OPT_IN
  | OPT_OUT
deriving DecidableEq, Repr

/-- Embeds the `PreCommitHookMetadata` dataclass from pre_commit_hooks.py. -/
structure PreCommitHookMetadata where
  pre_commit_config : String
  config_file_name : Option String := none
  config : Option String := none
  rule_type : RuleType := RuleType.MANDATORY
deriving DecidableEq, Repr

/-- Registry entry `"black"` of pre_commit_hooks.py. -/
def blackHook : PreCommitHookMetadata :=
  { pre_commit_config := "
  - repo: https://github.com/psf/black
    rev: 23.10.1
    hooks:
      - id: black
"
    rule_type := RuleType.MANDATORY }

/-- Registry entry `"clang-format"` of pre_commit_hooks.py. -/
def clangFormatHook : PreCommitHookMetadata :=
  { config_file_name := some ".clang-format"
    config := some "Language: Cpp
BasedOnStyle: Google
ColumnLimit: 110
IndentWidth: 4
AccessModifierOffset: -4
SortIncludes: false
ConstructorInitializerIndentWidth: 8
ContinuationIndentWidth: 8
"
    pre_commit_config := "
  - repo: https://github.com/pre-commit/mirrors-clang-format
    rev: v17.0.3
    hooks:
      - id: clang-format
"
    rule_type := RuleType.OPT_IN }

/-- Registry entry `"flake8"` of pre_commit_hooks.py. -/
def flake8Hook : PreCommitHookMetadata :=
  { config_file_name := some ".flake8"
    config := some "[flake8]
extend-ignore = E133, E203, E226, E228, N802, N803, N806, N812, N813, N815, N816, W503
max-line-length = 110
max-doc-length = 79
exclude = __init__.py
"
    pre_commit_config := "
  - repo: https://github.com/pycqa/flake8
    rev: 6.1.0
    hooks:
      - id: flake8
"
    rule_type := RuleType.MANDATORY }

/-- Registry entry `"format-xmllint"` of pre_commit_hooks.py. -/
def formatXmllintHook : PreCommitHookMetadata :=
  { pre_commit_config := "
  - repo: https://github.com/lsst-ts/pre-commit-xmllint
    rev: v1.0.0
    hooks:
      - id: format-xmllint
"
    rule_type := RuleType.OPT_IN }

/-- Registry entry `"isort"` of pre_commit_hooks.py. -/
def isortHook : PreCommitHookMetadata :=
  { config_file_name := some ".isort.cfg"
    config := some "[settings]
profile=black
"
    pre_commit_config := "
  - repo: https://github.com/pycqa/isort
    rev: 5.12.0
    hooks:
      - id: isort
        name: isort (python)
"
    rule_type := RuleType.MANDATORY }

/-- Registry entry `"mypy"` of pre_commit_hooks.py. -/
def mypyHook : PreCommitHookMetadata :=
  { config_file_name := some ".mypy.ini"
    config := some "[mypy]
disallow_untyped_defs = True
ignore_missing_imports = True
exclude = version.py
"
    pre_commit_config := "
  - repo: https://github.com/pre-commit/mirrors-mypy
    rev: v1.6.1
    hooks:
      - id: mypy
        additional_dependencies: [types-PyYAML==6]
"
    rule_type := RuleType.OPT_OUT }

/-- Registry entry `"pre-commit-hooks"` of pre_commit_hooks.py, the
always-on pseudo-entry contributing the check-yaml and check-xml checks. -/
def preCommitHooksHook : PreCommitHookMetadata :=
  { pre_commit_config := "
  - repo: https://github.com/pre-commit/pre-commit-hooks
    rev: v4.5.0
    hooks:
      - id: check-yaml
        exclude: conda/meta.yaml
      - id: check-xml
"
    rule_type := RuleType.MANDATORY }

/-- Registry entry `"ruff"` of pre_commit_hooks.py. -/
def ruffHook : PreCommitHookMetadata :=
  { config_file_name := some ".ruff.toml"
    config := some "ignore = [
  \"E203\", \"E226\", \"E228\", \"E999\", \"N802\", \"N803\", \"N806\", \"N812\", \"N813\", \"N815\", \"N816\"
]
line-length = 110
exclude = [\"__init__.py\"]
select = [\"E\", \"F\", \"N\", \"W\"]
[pycodestyle]
max-doc-length = 79
[pydocstyle]
convention = \"numpy\"
"
    pre_commit_config := "
  - repo: https://github.com/astral-sh/ruff-pre-commit
    rev: v0.1.2
    hooks:
      - id: ruff
"
    rule_type := RuleType.OPT_IN }

/-- Registry entry `"towncrier"` of pre_commit_hooks.py. -/
def towncrierHook : PreCommitHookMetadata :=
  { pre_commit_config := "
  - repo: https://github.com/twisted/towncrier
    rev: 23.10.0
    hooks:
      - id: towncrier-check
      "
    config_file_name := some "towncrier.toml"
    config := some "[tool.towncrier]
package_dir = \"python\"
filename = \"doc/version_history.rst\"
directory = \"doc/news\"
filename_format = \"{name}.{type}.rst|{name}.{type}.md\"
title_format = \"{version} ({project_date})\"
issue_format = \"`{issue} <https://jira.lsstcorp.org/browse/{issue}>`_\"

[[tool.towncrier.type]]
    directory = \"feature\"
    name = \"New Features\"
    showcontent = true

[[tool.towncrier.type]]
    directory = \"bugfix\"
    name = \"Bug Fixes\"
    showcontent = true

[[tool.towncrier.type]]
    directory = \"perf\"
    name = \"Performance Enhancement\"
    showcontent = true

[[tool.towncrier.type]]
    directory = \"doc\"
    name = \"Documentation\"
    showcontent = true

[[tool.towncrier.type]]
    directory = \"removal\"
    name = \"API Removal or Deprecation\"
    showcontent = true

[[tool.towncrier.type]]
    directory = \"misc\"
    name = \"Other Changes and Additions\"
    showcontent = true
"
    rule_type := RuleType.OPT_IN }

/-- Embeds `registry` from pre_commit_hooks.py: an insertion-ordered dict
(alphabetically sorted by hook name), embedded as an association list in
the same order. -/
def registry : List (String × PreCommitHookMetadata) :=
  [ ("black", blackHook)
  , ("clang-format", clangFormatHook)
  , ("flake8", flake8Hook)
  , ("format-xmllint", formatXmllintHook)
  , ("isort", isortHook)
  , ("mypy", mypyHook)
  , ("pre-commit-hooks", preCommitHooksHook)
  , ("ruff", ruffHook)
  , ("towncrier", towncrierHook)
  ]

/-- Constant `TS_PRE_COMMIT_CONFIG_YAML` from pre_commit_conf_generator.py. -/
def TS_PRE_COMMIT_CONFIG_YAML : String := ".ts_pre_commit_config.yaml"

/-- Constant `PRE_COMMIT_CONFIG_FILE_NAME` from pre_commit_conf_generator.py. -/
def PRE_COMMIT_CONFIG_FILE_NAME : String := ".pre-commit-config.yaml"

/-- Embeds a `types.SimpleNamespace` argument object: the `create` flag plus
the dynamically named boolean hook attributes (`no_mypy`,
`with_clang_format`, ...), held as an association list from attribute name
to value. -/
structure Args where
  create : Bool := false
  flags : List (String × Bool) := []
deriving DecidableEq, Repr

/-- Embeds Python `getattr(args, name, default)` on the boolean hook
attributes of an args namespace. -/
def getattrB (args : Args) (name : String) (dflt : Bool) : Bool :=
  (args.flags.lookup name).getD dflt

/-- Embeds Python `setattr(args, name, value)` on the boolean hook
attributes of an args namespace (a later setting shadows an earlier one). -/
def setattrB (args : Args) (name : String) (b : Bool) : Args :=
  { args with flags := (name, b) :: args.flags }

/-- Embeds Python `hook_name.replace('-', '_')`, used throughout
pre_commit_conf_generator.py to build attribute names: every hyphen is
replaced by an underscore. -/
def pyAttrName (hookName : String) : String :=
  ⟨hookName.data.map (fun c => if c = '-' then '_' else c)⟩

/-- Value of one key of the parsed flat YAML preference document
(`yaml.safe_load` of `.ts_pre_commit_config.yaml`): a boolean or some other
scalar, embedded here as a string. -/
inductive ConfigValue where
  | bool (b : Bool)
  | str (s : String)
deriving DecidableEq, Repr

/-- Python truthiness of a parsed YAML value, as used by `not option` and
`if arg` in pre_commit_conf_generator.py. -/
def ConfigValue.truthy : ConfigValue → Bool
  | ConfigValue.bool b => b
  | ConfigValue.str s => !s.data.isEmpty

/-- Embeds the Python identity test `value is True`. -/
def ConfigValue.isPyTrue : ConfigValue → Bool
  | ConfigValue.bool b => b
  | ConfigValue.str _ => false

/-- The parsed preference document: a flat insertion-ordered mapping from
key to value, embedded as an association list (dict keys are unique). -/
abbrev ConfigDoc := List (String × ConfigValue)

/-- Embeds `config.get(name, default)` on the parsed preference document. -/
def ConfigDoc.get (config : ConfigDoc) (name : String) (dflt : ConfigValue) : ConfigValue :=
  (config.lookup name).getD dflt

/-- Embeds the `hook_names` list built inside `validate_config_file_contents`
(lines 322-328): the registry names with the `"pre-commit-hooks"`
pseudo-entry replaced by its sub-checks `check-yaml` and `check-xml`. -/
def hook_names : List String :=
  registry.foldl
    (fun acc p =>
      if p.1 = "pre-commit-hooks" then acc ++ ["check-yaml", "check-xml"]
      else acc ++ [p.1])
    []

/-- Loop body of `_check_missing_hooks` (lines 363-378): compute whether
`hook_name` is missing from the document, skip names absent from the
registry (check-yaml, check-xml), clear the flag for non-MANDATORY hooks,
and append the name to the accumulated report when it remains set. -/
def missingStep (config : ConfigDoc) (missing_hooks : List String) (hook_name : String) :
    List String :=
  let missing := !(config.any (fun option => option.1 == hook_name))
  match registry.lookup hook_name with
  | none => missing_hooks
  | some hook =>
    let missing := if hook.rule_type ≠ RuleType.MANDATORY then false else missing
    if missing then missing_hooks ++ [hook_name] else missing_hooks

/-- Embeds `_check_missing_hooks` (lines 361-379) as the fold of its loop
body over the hook names. -/
def check_missing_hooks (config : ConfigDoc) (hookNames : List String) : List String :=
  hookNames.foldl (missingStep config) []

/-- Loop body of `_check_incorrect_config_options` (lines 384-400): skip
names absent from the registry and non-MANDATORY hooks, then append
`hook_name` to the accumulated report unless some document entry maps
that exact key to the value `True`. -/
def incorrectStep (config : ConfigDoc) (incorrect_config_options : List String)
    (hook_name : String) : List String :=
  match registry.lookup hook_name with
  | none => incorrect_config_options
  | some hook =>
    if hook.rule_type ≠ RuleType.MANDATORY then incorrect_config_options
    else
      let incorrect :=
        !(config.any (fun option => option.1 == hook_name && option.2.isPyTrue))
      if incorrect then incorrect_config_options ++ [hook_name]
      else incorrect_config_options

/-- Embeds `_check_incorrect_config_options` (lines 382-401) as the fold
of its loop body over the hook names. -/
def check_incorrect_config_options (config : ConfigDoc) (hookNames : List String) :
    List String :=
  hookNames.foldl (incorrectStep config) []

/-- Loop body of `_check_additional_hooks` (lines 406-412): append the
document key to the accumulated report when it equals no hook name. -/
def additionalStep (hookNames : List String) (additional_hooks : List String)
    (option : String × ConfigValue) : List String :=
  if hookNames.all (fun hook_name => !(option.1 == hook_name))
  then additional_hooks ++ [option.1]
  else additional_hooks

/-- Embeds `_check_additional_hooks` (lines 404-413) as the fold of its
loop body over the document entries, reporting keys in document order. -/
def check_additional_hooks (config : ConfigDoc) (hookNames : List String) : List String :=
  config.foldl (additionalStep hookNames) []

/-- Lexicographic comparison of two character lists by code point, the
order Python string comparison uses. -/
def charListLe : List Char → List Char → Bool
  | [], _ => true
  | _ :: _, [] => false
  | a :: as, b :: bs => if a < b then true else if b < a then false else charListLe as bs

/-- Insert a string into an already sorted list of strings, before the
first element it compares less-or-equal to (stable). -/
def insertSorted (s : String) : List String → List String
  | [] => [s]
  | t :: ts => if charListLe s.data t.data then s :: t :: ts else t :: insertSorted s ts

/-- Embeds Python `sorted` on a list of strings: stable ascending
lexicographic sort by code point. -/
def pySorted (l : List String) : List String := l.foldr insertSorted []

/-- One entry of the combined error message raised by
`validate_config_file_contents`, carrying the list of hook names that the
corresponding line of the message reports. -/
inductive ExitMessage where
  | missingMsg (hooks : List String)
  | incorrectMsg (hooks : List String)
  | additionalMsg (hooks : List String)
deriving DecidableEq, Repr

/-- Embeds the pure core of `validate_config_file_contents`
(lines 284-358) on the parsed preference document: run the three checks,
collect one message entry per non-empty finding (the missing and the
incorrect lists are passed through `sorted`, the additional list is not),
and raise a single `ValueError` carrying them all when any finding is
non-empty. -/
def validate_config_file_contents (config : ConfigDoc) : Except (List ExitMessage) Unit :=
  let missing_hooks := check_missing_hooks config hook_names
  let incorrect_config_options := check_incorrect_config_options config hook_names
  let additional_hooks := check_additional_hooks config hook_names
  let exit_messages : List ExitMessage :=
    (if missing_hooks ≠ [] then [ExitMessage.missingMsg (pySorted missing_hooks)] else [])
    ++ (if incorrect_config_options ≠ []
        then [ExitMessage.incorrectMsg (pySorted incorrect_config_options)] else [])
    ++ (if additional_hooks ≠ []
        then [ExitMessage.additionalMsg additional_hooks] else [])
  if missing_hooks ≠ [] ∨ incorrect_config_options ≠ [] ∨ additional_hooks ≠ []
  then Except.error exit_messages
  else Except.ok ()

/-- Loop body of `update_args_from_config_file` (lines 430-437): for an
OPT_OUT hook set `no_<hook>` to the negation (Python truthiness) of the
document value defaulted to `True`; for an OPT_IN hook set `with_<hook>`
to the document value defaulted to `False`; MANDATORY hooks are
untouched. -/
def updateArgsStep (config : ConfigDoc) (a : Args) (p : String × PreCommitHookMetadata) :
    Args :=
  match p.2.rule_type with
  | RuleType.OPT_OUT =>
    let option := config.get p.1 (ConfigValue.bool true)
    setattrB a ("no_" ++ pyAttrName p.1) (!option.truthy)
  | RuleType.OPT_IN =>
    let option := config.get p.1 (ConfigValue.bool false)
    setattrB a ("with_" ++ pyAttrName p.1) option.truthy
  | RuleType.MANDATORY => a

/-- Embeds `update_args_from_config_file` (lines 416-437) as the fold of
its loop body over the registry. -/
def update_args_from_config_file (args : Args) (config : ConfigDoc) : Args :=
  registry.foldl (updateArgsStep config) args

/-- Loop body of `generate_pre_commit_conf_file` (lines 452-461): append
the hook's `pre_commit_config` fragment to the accumulated text when its
rule is MANDATORY, when it is OPT_OUT and the `no_<hook>` attribute
(default False) is not set, or when it is OPT_IN and the `with_<hook>`
attribute (default False) is set. -/
def generateStep (args : Args) (pre_commit_config : String)
    (p : String × PreCommitHookMetadata) : String :=
  match p.2.rule_type with
  | RuleType.MANDATORY => pre_commit_config ++ p.2.pre_commit_config
  | RuleType.OPT_OUT =>
    let arg := getattrB args ("no_" ++ pyAttrName p.1) false
    pre_commit_config ++ (if !arg then p.2.pre_commit_config else "")
  | RuleType.OPT_IN =>
    let arg := getattrB args ("with_" ++ pyAttrName p.1) false
    pre_commit_config ++ (if arg then p.2.pre_commit_config else "")

/-- Embeds the string-composition core of `generate_pre_commit_conf_file`
(lines 440-465): starting from `"repos:"`, fold the loop body over the
registry in order. -/
def generate_pre_commit_conf_string (args : Args) : String :=
  registry.foldl (generateStep args) "repos:"

/-- The inclusion condition that claims C1, C4 and C5 describe: a hook's
fragment is appended exactly when its rule is MANDATORY, or it is OPT_OUT
and the `no_<hook>` attribute is absent or False, or it is OPT_IN and the
`with_<hook>` attribute is present and True. -/
def hookIncluded (args : Args) (p : String × PreCommitHookMetadata) : Bool :=
  match p.2.rule_type with
  | RuleType.MANDATORY => true
  | RuleType.OPT_OUT => !(getattrB args ("no_" ++ pyAttrName p.1) false)
  | RuleType.OPT_IN => getattrB args ("with_" ++ pyAttrName p.1) false

/-- Loop body of `create_config_files` (lines 495-516 with the helpers
`_write_mandatory`, `_write_opt_in`, `_write_opt_out`, lines 519-557):
for a hook owning a config file, append the (file name, contents) pair
that gets written, under the same rule/attribute conditions as the
fragment composition. The overwrite-or-skip policy for already existing
files is I/O and is not part of the selection. -/
def createFilesStep (args : Args) (acc : List (String × String))
    (p : String × PreCommitHookMetadata) : List (String × String) :=
  match p.2.config_file_name, p.2.config with
  | some fn, some cfg =>
    match p.2.rule_type with
    | RuleType.MANDATORY => acc ++ [(fn, cfg)]
    | RuleType.OPT_OUT =>
      if !(getattrB args ("no_" ++ pyAttrName p.1) false) then acc ++ [(fn, cfg)]
      else acc
    | RuleType.OPT_IN =>
      if getattrB args ("with_" ++ pyAttrName p.1) false then acc ++ [(fn, cfg)]
      else acc
  | _, _ => acc

/-- Embeds the file-selection loop of `create_config_files` as the fold
of its loop body over the registry. -/
def create_config_files (args : Args) : List (String × String) :=
  registry.foldl (createFilesStep args) []

/-- Loop body of the line construction of `_create_config_file`
(lines 211-234): the pseudo-entry contributes `check-yaml: true` and
`check-xml: true`, MANDATORY hooks contribute `<name>: true`, and
optional hooks contribute `<name>: true|false` from the `no_<hook>` /
`with_<hook>` attribute (absent attributes default to
`rule_type == OPT_IN`, and OPT_IN values are flipped before the
`is False` test). -/
def createLinesStep (args : Args) (lines : List String)
    (p : String × PreCommitHookMetadata) : List String :=
  if p.1 = "pre-commit-hooks" then lines ++ ["check-yaml: true", "check-xml: true"]
  else
    match p.2.rule_type with
    | RuleType.MANDATORY => lines ++ [p.1 ++ ": true"]
    | RuleType.OPT_OUT =>
      let arg := getattrB args ("no_" ++ pyAttrName p.1) false
      lines ++ [p.1 ++ ": " ++ (if arg = false then "true" else "false")]
    | RuleType.OPT_IN =>
      let arg := !(getattrB args ("with_" ++ pyAttrName p.1) true)
      lines ++ [p.1 ++ ": " ++ (if arg = false then "true" else "false")]

/-- Embeds `_create_config_file` line construction as the sorted fold of
its loop body over the registry. -/
def create_config_file_lines (args : Args) : List String :=
  pySorted (registry.foldl (createLinesStep args) [])

/-- Split a line at its first `": "` occurrence into key and value. -/
def splitColonSpace : List Char → Option (List Char × List Char)
  | [] => none
  | ':' :: ' ' :: rest => some ([], rest)
  | c :: rest =>
    match splitColonSpace rest with
    | some (k, v) => some (c :: k, v)
    | none => none

/-- Modelled external collaborator: `yaml.safe_load` applied to the flat
`name: bool` preference documents this tool reads and writes, one
`key: value` pair per line, with `true`/`false` parsed as booleans. -/
def parse_flat_yaml (lines : List String) : ConfigDoc :=
  lines.filterMap
    (fun line =>
      match splitColonSpace line.data with
      | some (k, v) =>
        some (String.mk k,
          if String.mk v = "true" then ConfigValue.bool true
          else if String.mk v = "false" then ConfigValue.bool false
          else ConfigValue.str (String.mk v))
      | none => none)

/-- Loop body of the hook-attribute construction of `parse_args`
(lines 114-133): per registry entry, the generated `--no-<hook>`
(OPT_OUT) or `--with-<hook>` (OPT_IN) `store_true` flag becomes the
attribute `no_<hook>` or `with_<hook>` set from the token list. -/
def parseFlagsStep (tokens : List String) (acc : List (String × Bool))
    (p : String × PreCommitHookMetadata) : List (String × Bool) :=
  match p.2.rule_type with
  | RuleType.OPT_OUT =>
    acc ++ [("no_" ++ pyAttrName p.1, tokens.contains ("--no-" ++ p.1))]
  | RuleType.OPT_IN =>
    acc ++ [("with_" ++ pyAttrName p.1, tokens.contains ("--with-" ++ p.1))]
  | RuleType.MANDATORY => acc

/-- Embeds `parse_args` (lines 63-142) on a token list of recognized
`store_true` flags: set `create` from `--create` and set each generated
hook attribute from its flag token, then raise a `ValueError` when
`--no-mypy` was given without `--create`. -/
def parse_args (tokens : List String) : Except String Args :=
  let sn : Args :=
    { create := tokens.contains "--create"
      flags := registry.foldl (parseFlagsStep tokens) [] }
  if getattrB sn "no_mypy" false = true ∧ sn.create = false
  then Except.error "Specifying --no-mypy requires --create as well."
  else Except.ok sn

/-- Loop body of the flag registration of `parse_args` (lines 114-133):
register `--no-<hook>` for an OPT_OUT entry and `--with-<hook>` for an
OPT_IN entry; MANDATORY entries get no flag. -/
def flagNamesStep (acc : List String) (p : String × PreCommitHookMetadata) : List String :=
  match p.2.rule_type with
  | RuleType.OPT_OUT => acc ++ ["--no-" ++ p.1]
  | RuleType.OPT_IN => acc ++ ["--with-" ++ p.1]
  | RuleType.MANDATORY => acc

/-- The command-line flag names `parse_args` registers for hooks
(lines 114-133). -/
def parse_args_hook_flag_names : List String :=
  registry.foldl flagNamesStep []

/-- Outcome of `create_or_report_missing_config_file` (lines 165-195):
either the config file was created, or the instructions were raised in a
`FileNotFoundError`, or the process exited with a status code, or the
function returned with no action. -/
inductive CreateConfigOutcome where
  | createdFile
  | raisedFileNotFound
  | exitedWithCode (code : Nat)
  | returnedNormally
deriving DecidableEq, Repr

/-- Embeds the control flow of `create_or_report_missing_config_file`
(lines 165-195) given whether the preference file already exists: a
missing file is created (`--create`) or reported via `FileNotFoundError`;
an existing file with `--create` prints a notice and exits with status 1;
an existing file without `--create` returns with no action. -/
def create_or_report_missing_config_file (configFileExists : Bool) (args : Args) :
    CreateConfigOutcome :=
  if !configFileExists then
    if args.create then CreateConfigOutcome.createdFile
    else CreateConfigOutcome.raisedFileNotFound
  else if args.create then CreateConfigOutcome.exitedWithCode 1
  else CreateConfigOutcome.returnedNormally

/-- Contents of the preference file after
`create_or_report_missing_config_file` ran, given its prior contents (as
lines): only the missing-file `--create` path writes anything. -/
def config_file_after_create_or_report (configFileExists : Bool) (prev : List String)
    (args : Args) : List String :=
  if !configFileExists then
    if args.create then create_config_file_lines args else prev
  else prev

/-- The `.gitignore` entries `update_dot_gitignore` (lines 560-590)
considers, in write order: the pipeline config file name first, then every
registry hook's `config_file_name`, in registry order. -/
def gitignore_entries : List (List Char) :=
  PRE_COMMIT_CONFIG_FILE_NAME.data ::
    registry.foldl
      (fun acc p =>
        match p.2.config_file_name with
        | some fn => acc ++ [fn.data]
        | none => acc)
      []

/-- Loop body of the append phase of `update_dot_gitignore`
(lines 582-590): append `<entry>\n` when the entry does not occur as a
substring of the prior contents. -/
def gitignoreStep (contents : List Char) (acc : List Char) (e : List Char) : List Char :=
  if e <:+: contents then acc else acc ++ e ++ ['\n']

/-- Embeds `update_dot_gitignore` (lines 560-590) as a function on the
prior contents of the `.gitignore` file: append a newline when the prior
contents are non-empty and do not end in one, then append `<entry>\n` for
every considered entry that does not occur as a substring of the prior
contents. -/
def update_dot_gitignore (contents : List Char) : List Char :=
  let start :=
    if contents ≠ [] ∧ contents.getLast? ≠ some '\n' then contents ++ ['\n'] else contents
  gitignore_entries.foldl (gitignoreStep contents) start

/-! ### General helper lemmas -/

/-- A member of a list of lists is a contiguous segment of the flattened
concatenation. -/
theorem seg_of_mem_flatten {α : Type*} {x : List α} :
    ∀ {L : List (List α)}, x ∈ L → x <:+: L.flatten := by
  intro L h
  induction L with
  | nil => cases h
  | cons a L ih =>
    rcases List.mem_cons.mp h with rfl | h2
    · exact ⟨[], L.flatten, by simp⟩
    · obtain ⟨s, t, hst⟩ := ih h2
      exact ⟨a ++ s, t, by simp [← hst]⟩

/-- A contiguous segment stays one after extending the list on the left. -/
theorem seg_append_left {α : Type*} {x y : List α} (z : List α) (h : x <:+: y) :
    x <:+: z ++ y := by
  obtain ⟨s, t, hst⟩ := h
  exact ⟨z ++ s, t, by simp [← hst]⟩

/-- A contiguous segment stays one after extending the list on the right. -/
theorem seg_append_right {α : Type*} {x y : List α} (z : List α) (h : x <:+: y) :
    x <:+: y ++ z := by
  obtain ⟨s, t, hst⟩ := h
  exact ⟨s, t ++ z, by simp [← hst]⟩

/-- A left fold that appends a block per element is the initial value
followed by the concatenation of the blocks. -/
theorem foldl_append_flatMap {α β : Type*} (g : α → List β) :
    ∀ (l : List α) (init : List β),
      l.foldl (fun acc x => acc ++ g x) init = init ++ l.flatMap g := by
  intro l
  induction l with
  | nil => intro init; simp
  | cons a l ih => intro init; simp [ih]

/-- String version of `foldl_append_flatMap`, at the level of character
data. -/
theorem data_foldl_append {α : Type*} (g : α → String) :
    ∀ (l : List α) (init : String),
      (l.foldl (fun acc x => acc ++ g x) init).data =
        init.data ++ (l.map (fun x => (g x).data)).flatten := by
  intro l
  induction l with
  | nil => intro init; simp
  | cons a l ih => intro init; simp [ih, String.data_append]

/-- Concatenating conditional singleton blocks is mapping over a filter. -/
theorem flatMap_if_map {α β : Type*} (p : α → Bool) (f : α → β) :
    ∀ l : List α, (l.flatMap (fun x => if p x then [f x] else [])) = (l.filter p).map f := by
  intro l
  induction l with
  | nil => rfl
  | cons a l ih => by_cases h : p a <;> simp [h, ih, List.filter_cons]

/-- An element of a list contributes its block as a contiguous segment of
the concatenation of all blocks. -/
theorem seg_block_of_mem {α : Type*} (g : α → List Char) {x : α} :
    ∀ {L : List α}, x ∈ L → g x <:+: L.flatMap g := by
  intro L h
  induction L with
  | nil => cases h
  | cons a L ih =>
    rcases List.mem_cons.mp h with rfl | h2
    · exact ⟨[], L.flatMap g, by simp⟩
    · obtain ⟨s, t, hst⟩ := ih h2
      exact ⟨g a ++ s, t, by simp [← hst]⟩

/-- If every element maps to the empty block the concatenation is empty. -/
theorem flatMap_eq_nil_of_forall {α : Type*} (g : α → List Char) :
    ∀ {L : List α}, (∀ x ∈ L, g x = []) → L.flatMap g = [] := by
  intro L h
  induction L with
  | nil => rfl
  | cons a L ih =>
    simp only [List.flatMap_cons, h a (List.mem_cons_self a L), List.nil_append]
    exact ih (fun x hx => h x (List.mem_cons_of_mem a hx))

/-- A fold whose step appends a block per element is the initial value
followed by the concatenation of the blocks. -/
theorem foldl_append_of_step {α β : Type*} (step : List β → α → List β) (g : α → List β)
    (hstep : ∀ acc x, step acc x = acc ++ g x) :
    ∀ (l : List α) (init : List β), l.foldl step init = init ++ l.flatMap g := by
  intro l
  induction l with
  | nil => intro init; simp
  | cons a l ih => intro init; rw [List.foldl_cons, hstep, ih]; simp

/-- Concatenating conditional singleton blocks is filtering. -/
theorem flatMap_if_id {α : Type*} (p : α → Bool) :
    ∀ l : List α, (l.flatMap (fun x => if p x then [x] else [])) = l.filter p := by
  intro l
  induction l with
  | nil => rfl
  | cons a l ih => by_cases h : p a <;> simp [h, ih, List.filter_cons]

/-- String-accumulator version of `foldl_append_of_step`, at the level of
character data. -/
theorem data_foldl_of_step {α : Type*} (step : String → α → String) (g : α → String)
    (hstep : ∀ acc x, step acc x = acc ++ g x) :
    ∀ (l : List α) (init : String),
      (l.foldl step init).data = init.data ++ (l.map (fun x => (g x).data)).flatten := by
  intro l
  induction l with
  | nil => intro init; simp
  | cons a l ih => intro init; rw [List.foldl_cons, hstep, ih]; simp [String.data_append]

/-! ### Helper lemmas about documents (association lists) -/

/-- A key that `lookup` does not find is not among the document keys. -/
theorem not_mem_keys_of_lookup_none {doc : ConfigDoc} {n : String}
    (h : doc.lookup n = none) : n ∉ doc.map Prod.fst := by
  rw [List.lookup_eq_none_iff] at h
  intro hmem
  obtain ⟨p, hp, hp1⟩ := List.mem_map.mp hmem
  have h2 := h p hp
  rw [hp1] at h2
  simp at h2

/-- No document entry key-matches a key that `lookup` does not find. -/
theorem any_key_false_of_not_mem {doc : ConfigDoc} {n : String}
    (h : n ∉ doc.map Prod.fst) (g : String × ConfigValue → Bool) :
    doc.any (fun o => o.1 == n && g o) = false := by
  induction doc with
  | nil => rfl
  | cons kv d ih =>
    obtain ⟨k, v⟩ := kv
    simp only [List.map_cons, List.mem_cons, not_or] at h
    simp only [List.any_cons, Bool.or_eq_false_iff]
    constructor
    · simp [beq_iff_eq]
      intro hkn
      exact absurd hkn.symm h.1
    · exact ih h.2

/-- No document entry key-matches a key that `lookup` does not find
(plain version). -/
theorem any_key_false_of_lookup_none {doc : ConfigDoc} {n : String}
    (h : doc.lookup n = none) : doc.any (fun o => o.1 == n) = false := by
  have h2 := any_key_false_of_not_mem (not_mem_keys_of_lookup_none h) (fun _ => true)
  simpa using h2

/-- A key found by `lookup` key-matches some document entry. -/
theorem any_key_true_of_lookup_some {doc : ConfigDoc} {n : String} {v : ConfigValue}
    (h : doc.lookup n = some v) : doc.any (fun o => o.1 == n) = true := by
  induction doc with
  | nil => simp at h
  | cons kv d ih =>
    obtain ⟨k, w⟩ := kv
    rw [List.lookup_cons] at h
    cases hbeq : (n == k) with
    | false =>
      rw [hbeq] at h
      simp only [List.any_cons, Bool.or_eq_true]
      exact Or.inr (ih h)
    | true =>
      have hk : k == n := by
        have : n = k := by simpa [beq_iff_eq] using hbeq
        simp [beq_iff_eq, this]
      simp [List.any_cons, hk]

/-- With unique keys, whether a document entry maps a key to `True` is
read off the value `lookup` finds for it. -/
theorem any_true_val_of_nodup {doc : ConfigDoc} {n : String} {v : ConfigValue}
    (hn : (doc.map Prod.fst).Nodup) (h : doc.lookup n = some v) :
    doc.any (fun o => o.1 == n && o.2.isPyTrue) = v.isPyTrue := by
  induction doc with
  | nil => simp at h
  | cons kv d ih =>
    obtain ⟨k, w⟩ := kv
    simp only [List.map_cons, List.nodup_cons] at hn
    rw [List.lookup_cons] at h
    cases hbeq : (n == k) with
    | false =>
      rw [hbeq] at h
      have h2 := ih hn.2 h
      have hkn : (k == n) = false := by
        have : ¬ n = k := by simpa [beq_iff_eq] using hbeq
        simp [beq_iff_eq]
        exact fun he => this he.symm
      simp [List.any_cons, hkn, h2]
    | true =>
      rw [hbeq] at h
      obtain rfl : w = v := by simpa using h
      obtain rfl : n = k := by simpa [beq_iff_eq] using hbeq
      have hrest : d.any (fun o => o.1 == n && o.2.isPyTrue) = false :=
        any_key_false_of_not_mem hn.1 (fun o => o.2.isPyTrue)
      simp [List.any_cons, hrest]

/-! ### Characterizations of the validator checks -/

/-- The condition under which `missingStep` appends a name to the
missing-hooks report. -/
def missingPred (config : ConfigDoc) (hook_name : String) : Bool :=
  match registry.lookup hook_name with
  | none => false
  | some hook =>
    if hook.rule_type ≠ RuleType.MANDATORY then false
    else !(config.any (fun option => option.1 == hook_name))

/-- `missingStep` appends exactly the names satisfying `missingPred`. -/
theorem missingStep_eq (config : ConfigDoc) (acc : List String) (n : String) :
    missingStep config acc n = acc ++ (if missingPred config n then [n] else []) := by
  unfold missingStep missingPred
  cases hl : registry.lookup n with
  | none => simp
  | some hook =>
    by_cases hr : hook.rule_type ≠ RuleType.MANDATORY
    · simp [hr]
    · by_cases hm : (config.any (fun option => option.1 == n)) = true <;> simp [hr, hm]

/-- `_check_missing_hooks` filters the hook names through `missingPred`. -/
theorem check_missing_eq (config : ConfigDoc) (hns : List String) :
    check_missing_hooks config hns = hns.filter (missingPred config) := by
  unfold check_missing_hooks
  rw [foldl_append_of_step (missingStep config) _ (missingStep_eq config), flatMap_if_id]
  simp

/-- Membership in the missing-hooks report. -/
theorem mem_check_missing_iff {config : ConfigDoc} {hns : List String} {n : String} :
    n ∈ check_missing_hooks config hns ↔ n ∈ hns ∧ missingPred config n = true := by
  rw [check_missing_eq]
  exact List.mem_filter

/-- The condition under which `incorrectStep` appends a name to the
incorrectly-configured-hooks report. -/
def incorrectPred (config : ConfigDoc) (hook_name : String) : Bool :=
  match registry.lookup hook_name with
  | none => false
  | some hook =>
    if hook.rule_type ≠ RuleType.MANDATORY then false
    else !(config.any (fun option => option.1 == hook_name && option.2.isPyTrue))

/-- `incorrectStep` appends exactly the names satisfying `incorrectPred`. -/
theorem incorrectStep_eq (config : ConfigDoc) (acc : List String) (n : String) :
    incorrectStep config acc n = acc ++ (if incorrectPred config n then [n] else []) := by
  unfold incorrectStep incorrectPred
  cases hl : registry.lookup n with
  | none => simp
  | some hook =>
    by_cases hr : hook.rule_type ≠ RuleType.MANDATORY
    · simp [hr]
    · by_cases hm :
        (config.any (fun option => option.1 == n && option.2.isPyTrue)) = true <;>
        simp [hr, hm]

/-- `_check_incorrect_config_options` filters the hook names through
`incorrectPred`. -/
theorem check_incorrect_eq (config : ConfigDoc) (hns : List String) :
    check_incorrect_config_options config hns = hns.filter (incorrectPred config) := by
  unfold check_incorrect_config_options
  rw [foldl_append_of_step (incorrectStep config) _ (incorrectStep_eq config),
    flatMap_if_id]
  simp

/-- Membership in the incorrectly-configured-hooks report. -/
theorem mem_check_incorrect_iff {config : ConfigDoc} {hns : List String} {n : String} :
    n ∈ check_incorrect_config_options config hns ↔
      n ∈ hns ∧ incorrectPred config n = true := by
  rw [check_incorrect_eq]
  exact List.mem_filter

/-- The condition under which `additionalStep` appends a document key to
the additional-hooks report. -/
def additionalPred (hookNames : List String) (option : String × ConfigValue) : Bool :=
  hookNames.all (fun hook_name => !(option.1 == hook_name))

/-- `additionalStep` appends exactly the keys of the entries satisfying
`additionalPred`. -/
theorem additionalStep_eq (hns : List String) (acc : List String)
    (o : String × ConfigValue) :
    additionalStep hns acc o = acc ++ (if additionalPred hns o then [o.1] else []) := by
  unfold additionalStep additionalPred
  by_cases h : (hns.all (fun hook_name => !(o.1 == hook_name))) = true <;> simp [h]

/-- `_check_additional_hooks` maps the keys of the document entries
filtered through `additionalPred`. -/
theorem check_additional_eq (config : ConfigDoc) (hns : List String) :
    check_additional_hooks config hns =
      (config.filter (additionalPred hns)).map Prod.fst := by
  unfold check_additional_hooks
  rw [foldl_append_of_step (additionalStep hns) _ (additionalStep_eq hns),
    flatMap_if_map]
  simp

/-- Membership in the additional-hooks report. -/
theorem mem_check_additional_iff {config : ConfigDoc} {hns : List String} {k : String} :
    k ∈ check_additional_hooks config hns ↔
      ∃ o, o ∈ config ∧ additionalPred hns o = true ∧ o.1 = k := by
  rw [check_additional_eq]
  constructor
  · intro h
    obtain ⟨o, ho, ho1⟩ := List.mem_map.mp h
    obtain ⟨hoc, hop⟩ := List.mem_filter.mp ho
    exact ⟨o, hoc, hop, ho1⟩
  · rintro ⟨o, hoc, hop, ho1⟩
    exact List.mem_map.mpr ⟨o, List.mem_filter.mpr ⟨hoc, hop⟩, ho1⟩

/-- A key reported additional is a key of the document. -/
theorem mem_keys_of_mem_check_additional {config : ConfigDoc} {hns : List String}
    {k : String} (h : k ∈ check_additional_hooks config hns) :
    k ∈ config.map Prod.fst := by
  obtain ⟨o, hoc, _, ho1⟩ := mem_check_additional_iff.mp h
  exact List.mem_map.mpr ⟨o, hoc, ho1⟩

/-- A document key that matches no hook name is reported additional. -/
theorem mem_check_additional_of_not_hook_name {config : ConfigDoc} {hns : List String}
    {k : String} (hk : k ∈ config.map Prod.fst) (hnot : k ∉ hns) :
    k ∈ check_additional_hooks config hns := by
  obtain ⟨o, hoc, ho1⟩ := List.mem_map.mp hk
  refine mem_check_additional_iff.mpr ⟨o, hoc, ?_, ho1⟩
  unfold additionalPred
  rw [List.all_eq_true]
  intro hn hhn
  rw [ho1]
  simp only [Bool.not_eq_eq_eq_not, Bool.not_true, beq_eq_false_iff_ne, ne_eq]
  intro he
  exact hnot (he ▸ hhn)

/-! ### Characterizations of the composition folds -/

/-- The fragment a registry entry contributes to the composed pipeline
configuration: its `pre_commit_config` exactly when `hookIncluded` holds. -/
def hookContribution (args : Args) (p : String × PreCommitHookMetadata) : String :=
  if hookIncluded args p then p.2.pre_commit_config else ""

/-- `generateStep` appends exactly the contribution of the entry. -/
theorem generateStep_eq (args : Args) (acc : String) (p : String × PreCommitHookMetadata) :
    generateStep args acc p = acc ++ hookContribution args p := by
  unfold generateStep hookContribution hookIncluded
  rcases p with ⟨n, pcc, cfn, cfg, rt⟩
  cases rt with
  | MANDATORY => simp
  | OPT_OUT =>
    by_cases h : (getattrB args ("no_" ++ pyAttrName n) false) = true <;> simp [h]
  | OPT_IN =>
    by_cases h : (getattrB args ("with_" ++ pyAttrName n) false) = true <;> simp [h]

/-- The composed pipeline configuration is the `"repos:"` header followed
by the contributions of the registry entries in registry order. -/
theorem generate_data_eq (args : Args) :
    (generate_pre_commit_conf_string args).data =
      "repos:".data ++ (registry.map (fun p => (hookContribution args p).data)).flatten := by
  unfold generate_pre_commit_conf_string
  exact data_foldl_of_step (generateStep args) _ (generateStep_eq args) registry "repos:"

/-- A MANDATORY registry entry's fragment is a contiguous segment of the
composed pipeline configuration, whatever the args are. -/
theorem mandatory_fragment_seg (args : Args) {p : String × PreCommitHookMetadata}
    (hp : p ∈ registry) (hm : p.2.rule_type = RuleType.MANDATORY) :
    p.2.pre_commit_config.data <:+: (generate_pre_commit_conf_string args).data := by
  rw [generate_data_eq]
  apply seg_append_left
  apply seg_of_mem_flatten
  apply List.mem_map.mpr
  refine ⟨p, hp, ?_⟩
  simp [hookContribution, hookIncluded, hm]

/-- The (file name, contents) pair a registry entry contributes to
`create_config_files`: present exactly when the entry owns a config file
and `hookIncluded` holds. -/
def selectedFile (args : Args) (p : String × PreCommitHookMetadata) :
    List (String × String) :=
  match p.2.config_file_name, p.2.config with
  | some fn, some cfg => if hookIncluded args p then [(fn, cfg)] else []
  | _, _ => []

/-- `createFilesStep` appends exactly the selected file of the entry. -/
theorem createFilesStep_eq (args : Args) (acc : List (String × String))
    (p : String × PreCommitHookMetadata) :
    createFilesStep args acc p = acc ++ selectedFile args p := by
  unfold createFilesStep selectedFile hookIncluded
  rcases p with ⟨n, pcc, cfn, cfg, rt⟩
  cases cfn with
  | none => cases cfg <;> cases rt <;> simp
  | some fn =>
    cases cfg with
    | none => cases rt <;> simp
    | some cfg =>
      cases rt with
      | MANDATORY => simp
      | OPT_OUT =>
        by_cases h : (getattrB args ("no_" ++ pyAttrName n) false) = true <;> simp [h]
      | OPT_IN =>
        by_cases h : (getattrB args ("with_" ++ pyAttrName n) false) = true <;> simp [h]

/-- `create_config_files` concatenates the selected files of the registry
entries in registry order. -/
theorem create_files_eq (args : Args) :
    create_config_files args = registry.flatMap (selectedFile args) := by
  unfold create_config_files
  rw [foldl_append_of_step (createFilesStep args) _ (createFilesStep_eq args)]
  simp

/-- A MANDATORY registry entry owning a config file always has it among
the selected config files, whatever the args are. -/
theorem mandatory_file_mem (args : Args) {p : String × PreCommitHookMetadata}
    (hp : p ∈ registry) (hm : p.2.rule_type = RuleType.MANDATORY) {fn cfg : String}
    (hfn : p.2.config_file_name = some fn) (hcfg : p.2.config = some cfg) :
    (fn, cfg) ∈ create_config_files args := by
  rw [create_files_eq]
  apply List.mem_flatMap.mpr
  refine ⟨p, hp, ?_⟩
  simp [selectedFile, hookIncluded, hfn, hcfg, hm]

/-! ### Claim C1 -/

/-- The preferences of the C1 scenario: the OPT_OUT hook mypy disabled
(`no_mypy` set) and the OPT_IN hook clang-format enabled
(`with_clang_format` set). -/
def prefsMypyOffClangOn : Args :=
  { flags := [("no_mypy", true), ("with_clang_format", true)] }

/-- C1: for the fixed registry and any argument namespace,
`generate_pre_commit_conf_file` composes the pipeline text from the
literal `"repos:"` header followed, iterating the registry entries in
their canonical (alphabetical) order, by exactly the fragments of the
hooks whose rule is MANDATORY, or OPT_OUT and not disabled via
`no_<hook>`, or OPT_IN and enabled via `with_<hook>`; in particular, for
preferences disabling mypy and enabling clang-format, the output contains
the black and clang-format fragments and excludes the mypy fragment. -/
theorem c1_generate_composition :
    (∀ args : Args,
      (generate_pre_commit_conf_string args).data =
        "repos:".data ++
          (registry.map (fun p =>
            if hookIncluded args p then p.2.pre_commit_config.data else [])).flatten)
    ∧ blackHook.pre_commit_config.data <:+:
        (generate_pre_commit_conf_string prefsMypyOffClangOn).data
    ∧ clangFormatHook.pre_commit_config.data <:+:
        (generate_pre_commit_conf_string prefsMypyOffClangOn).data
    ∧ ¬ mypyHook.pre_commit_config.data <:+:
        (generate_pre_commit_conf_string prefsMypyOffClangOn).data := by
  refine ⟨?_, by decide, by decide, by decide⟩
  intro args
  have h : (fun p => (hookContribution args p).data) =
      (fun p : String × PreCommitHookMetadata =>
        if hookIncluded args p then p.2.pre_commit_config.data else []) := by
    funext p
    unfold hookContribution
    split <;> rfl
  rw [generate_data_eq, ← h]

/-! ### Claim C4 -/

/-- C4: a MANDATORY hook's pipeline fragment and config file are always
included in the composed outputs, independent of any preference-file
content: for every preference document and prior args, after
`update_args_from_config_file` the composed pipeline still contains the
hook's fragment and `create_config_files` still selects its config file
(reading the preference document never alters MANDATORY hooks). -/
theorem c4_mandatory_always_included :
    ∀ (args : Args) (doc : ConfigDoc) (p : String × PreCommitHookMetadata),
      p ∈ registry → p.2.rule_type = RuleType.MANDATORY →
      p.2.pre_commit_config.data <:+:
        (generate_pre_commit_conf_string (update_args_from_config_file args doc)).data
      ∧ (∀ fn cfg, p.2.config_file_name = some fn → p.2.config = some cfg →
          (fn, cfg) ∈ create_config_files (update_args_from_config_file args doc)) := by
  intro args doc p hp hm
  exact ⟨mandatory_fragment_seg _ hp hm,
    fun fn cfg hfn hcfg => mandatory_file_mem _ hp hm hfn hcfg⟩

/-- Witness for C4: the flake8 hook (MANDATORY) keeps its fragment in the
composed pipeline even when the preference document maps flake8 to False. -/
theorem c4_witness :
    flake8Hook.pre_commit_config.data <:+:
      (generate_pre_commit_conf_string
        (update_args_from_config_file {} [("flake8", ConfigValue.bool false)])).data :=
  (c4_mandatory_always_included {} [("flake8", ConfigValue.bool false)]
    ("flake8", flake8Hook) (by decide) rfl).1

/-! ### Claim C5 -/

/-- Reading an attribute just set reads the set value. -/
theorem getattrB_setattrB_same (a : Args) (n : String) (b d : Bool) :
    getattrB (setattrB a n b) n d = b := by
  simp [getattrB, setattrB]

/-- Reading a different attribute skips an outer setting. -/
theorem getattrB_setattrB_ne (a : Args) (n m : String) (h : ¬ m = n) (b d : Bool) :
    getattrB (setattrB a n b) m d = getattrB a m d := by
  have hb : (m == n) = false := by simp [h]
  simp [getattrB, setattrB, List.lookup_cons, hb]

/-- `update_args_from_config_file` unfolds, on the fixed registry, to the
five attribute settings of the optional hooks in registry order. -/
theorem updateArgs_unfold (args : Args) (doc : ConfigDoc) :
    update_args_from_config_file args doc =
      setattrB (setattrB (setattrB (setattrB (setattrB args
        "with_clang_format" (doc.get "clang-format" (ConfigValue.bool false)).truthy)
        "with_format_xmllint" (doc.get "format-xmllint" (ConfigValue.bool false)).truthy)
        "no_mypy" (!(doc.get "mypy" (ConfigValue.bool true)).truthy))
        "with_ruff" (doc.get "ruff" (ConfigValue.bool false)).truthy)
        "with_towncrier" (doc.get "towncrier" (ConfigValue.bool false)).truthy := rfl

/-- C5: for every hook name absent from the preference document, the
resolved enabled state equals the registry default: a MANDATORY hook is
included, an OPT_OUT hook's `no_<hook>` attribute becomes False (so the
hook is enabled), an OPT_IN hook's `with_<hook>` attribute becomes False
(so the hook is disabled); and a missing mandatory key (of the names the
preference document carries) is reported by the validator's missing
check rather than silently defaulted. -/
theorem c5_absent_hook_defaults :
    ∀ (args : Args) (doc : ConfigDoc) (name : String) (hook : PreCommitHookMetadata),
      (name, hook) ∈ registry → doc.lookup name = none →
      (hook.rule_type = RuleType.MANDATORY →
        hookIncluded (update_args_from_config_file args doc) (name, hook) = true)
      ∧ (hook.rule_type = RuleType.OPT_OUT →
        getattrB (update_args_from_config_file args doc) ("no_" ++ pyAttrName name) false
          = false)
      ∧ (hook.rule_type = RuleType.OPT_IN →
        getattrB (update_args_from_config_file args doc) ("with_" ++ pyAttrName name) false
          = false)
      ∧ (hook.rule_type = RuleType.MANDATORY → name ∈ hook_names →
        name ∈ check_missing_hooks doc hook_names) := by
  intro args doc name hook hmem hlk
  have hany : doc.any (fun option => option.1 == name) = false := by
    have h2 := any_key_false_of_not_mem (not_mem_keys_of_lookup_none hlk) (fun _ => true)
    simpa using h2
  have hget : ∀ v : ConfigValue, doc.get name v = v := by
    intro v
    simp [ConfigDoc.get, hlk]
  simp only [registry, List.mem_cons, List.not_mem_nil, or_false, Prod.mk.injEq] at hmem
  rcases hmem with hca | hcb | hcc | hcd | hce | hcf | hcg | hch | hci
  case _ =>
    obtain ⟨rfl, rfl⟩ := hca
    -- black, MANDATORY
    refine ⟨fun _ => rfl, fun h => absurd h (by decide), fun h => absurd h (by decide),
      fun _ hin => mem_check_missing_iff.mpr ⟨hin, ?_⟩⟩
    unfold missingPred
    rw [show registry.lookup "black" = some blackHook from rfl]
    simp [blackHook, hany]
  case _ =>
    obtain ⟨rfl, rfl⟩ := hcb
    -- clang-format, OPT_IN
    refine ⟨fun h => absurd h (by decide), fun h => absurd h (by decide), fun _ => ?_,
      fun h => absurd h (by decide)⟩
    rw [updateArgs_unfold]
    rw [getattrB_setattrB_ne _ _ _ (by decide), getattrB_setattrB_ne _ _ _ (by decide),
      getattrB_setattrB_ne _ _ _ (by decide), getattrB_setattrB_ne _ _ _ (by decide)]
    rw [show ("with_" ++ pyAttrName "clang-format") = "with_clang_format" from rfl,
      getattrB_setattrB_same, hget]
    rfl
  case _ =>
    obtain ⟨rfl, rfl⟩ := hcc
    -- flake8, MANDATORY
    refine ⟨fun _ => rfl, fun h => absurd h (by decide), fun h => absurd h (by decide),
      fun _ hin => mem_check_missing_iff.mpr ⟨hin, ?_⟩⟩
    unfold missingPred
    rw [show registry.lookup "flake8" = some flake8Hook from rfl]
    simp [flake8Hook, hany]
  case _ =>
    obtain ⟨rfl, rfl⟩ := hcd
    -- format-xmllint, OPT_IN
    refine ⟨fun h => absurd h (by decide), fun h => absurd h (by decide), fun _ => ?_,
      fun h => absurd h (by decide)⟩
    rw [updateArgs_unfold]
    rw [getattrB_setattrB_ne _ _ _ (by decide), getattrB_setattrB_ne _ _ _ (by decide),
      getattrB_setattrB_ne _ _ _ (by decide)]
    rw [show ("with_" ++ pyAttrName "format-xmllint") = "with_format_xmllint" from rfl,
      getattrB_setattrB_same, hget]
    rfl
  case _ =>
    obtain ⟨rfl, rfl⟩ := hce
    -- isort, MANDATORY
    refine ⟨fun _ => rfl, fun h => absurd h (by decide), fun h => absurd h (by decide),
      fun _ hin => mem_check_missing_iff.mpr ⟨hin, ?_⟩⟩
    unfold missingPred
    rw [show registry.lookup "isort" = some isortHook from rfl]
    simp [isortHook, hany]
  case _ =>
    obtain ⟨rfl, rfl⟩ := hcf
    -- mypy, OPT_OUT
    refine ⟨fun h => absurd h (by decide), fun _ => ?_, fun h => absurd h (by decide),
      fun h => absurd h (by decide)⟩
    rw [updateArgs_unfold]
    rw [getattrB_setattrB_ne _ _ _ (by decide), getattrB_setattrB_ne _ _ _ (by decide)]
    rw [show ("no_" ++ pyAttrName "mypy") = "no_mypy" from rfl,
      getattrB_setattrB_same, hget]
    rfl
  case _ =>
    obtain ⟨rfl, rfl⟩ := hcg
    -- pre-commit-hooks, MANDATORY, not among the document hook names
    exact ⟨fun _ => rfl, fun h => absurd h (by decide), fun h => absurd h (by decide),
      fun _ hin => absurd hin (by decide)⟩
  case _ =>
    obtain ⟨rfl, rfl⟩ := hch
    -- ruff, OPT_IN
    refine ⟨fun h => absurd h (by decide), fun h => absurd h (by decide), fun _ => ?_,
      fun h => absurd h (by decide)⟩
    rw [updateArgs_unfold]
    rw [getattrB_setattrB_ne _ _ _ (by decide)]
    rw [show ("with_" ++ pyAttrName "ruff") = "with_ruff" from rfl,
      getattrB_setattrB_same, hget]
    rfl
  case _ =>
    obtain ⟨rfl, rfl⟩ := hci
    -- towncrier, OPT_IN
    refine ⟨fun h => absurd h (by decide), fun h => absurd h (by decide), fun _ => ?_,
      fun h => absurd h (by decide)⟩
    rw [updateArgs_unfold]
    rw [show ("with_" ++ pyAttrName "towncrier") = "with_towncrier" from rfl,
      getattrB_setattrB_same, hget]
    rfl

/-- Witness for C5: with an empty preference document, mypy (OPT_OUT) gets
`no_mypy = False`, so it stays enabled by default. -/
theorem c5_witness :
    getattrB (update_args_from_config_file {} []) ("no_" ++ pyAttrName "mypy") false
      = false :=
  (c5_absent_hook_defaults {} [] "mypy" mypyHook (by decide) rfl).2.1 rfl

/-! ### Claim C2 -/

/-- A preference document that is valid except for two unrecognized extra
keys listed in anti-alphabetical order. -/
def docUnsortedExtras : ConfigDoc :=
  [ ("black", ConfigValue.bool true)
  , ("check-xml", ConfigValue.bool true)
  , ("check-yaml", ConfigValue.bool true)
  , ("clang-format", ConfigValue.bool false)
  , ("flake8", ConfigValue.bool true)
  , ("format-xmllint", ConfigValue.bool false)
  , ("isort", ConfigValue.bool true)
  , ("mypy", ConfigValue.bool true)
  , ("ruff", ConfigValue.bool false)
  , ("towncrier", ConfigValue.bool false)
  , ("zz-extra", ConfigValue.bool true)
  , ("aa-extra", ConfigValue.bool true)
  ]

/-- Counterexample to C2 as stated: on a document whose only problems are
two unrecognized keys appearing in anti-alphabetical order, the single
raised error carries the additional list in document order, which is not
sorted. -/
theorem c2_counterexample :
    validate_config_file_contents docUnsortedExtras =
      Except.error [ExitMessage.additionalMsg ["zz-extra", "aa-extra"]]
    ∧ pySorted ["zz-extra", "aa-extra"] ≠ ["zz-extra", "aa-extra"] := by
  constructor
  · rfl
  · decide

/-- C2 (amended): when `validate_config_file_contents` finds any problem
it raises exactly one error that carries every non-empty finding list in
one combined message — the missing and the incorrect lists sorted, the
additional list in document order — and it never raises after only the
first finding: all three checks are evaluated and combined before the
single error is raised. -/
theorem c2_validate_combined :
    ∀ config : ConfigDoc,
      (validate_config_file_contents config = Except.ok () ↔
        check_missing_hooks config hook_names = []
        ∧ check_incorrect_config_options config hook_names = []
        ∧ check_additional_hooks config hook_names = [])
      ∧ (∀ msgs, validate_config_file_contents config = Except.error msgs →
          (check_missing_hooks config hook_names ≠ [] →
            ExitMessage.missingMsg (pySorted (check_missing_hooks config hook_names))
              ∈ msgs)
          ∧ (check_incorrect_config_options config hook_names ≠ [] →
            ExitMessage.incorrectMsg
              (pySorted (check_incorrect_config_options config hook_names)) ∈ msgs)
          ∧ (check_additional_hooks config hook_names ≠ [] →
            ExitMessage.additionalMsg (check_additional_hooks config hook_names)
              ∈ msgs)) := by
  intro config
  unfold validate_config_file_contents
  by_cases h1 : check_missing_hooks config hook_names = [] <;>
    by_cases h2 : check_incorrect_config_options config hook_names = [] <;>
      by_cases h3 : check_additional_hooks config hook_names = [] <;>
        simp [h1, h2, h3]

/-- Witness for C2 (amended): the empty document misses all mandatory
hooks; the single error carries both the missing list and the incorrect
list, sorted. -/
theorem c2_witness :
    validate_config_file_contents [] = Except.error
      [ExitMessage.missingMsg ["black", "flake8", "isort"],
       ExitMessage.incorrectMsg ["black", "flake8", "isort"]]
    ∧ ExitMessage.missingMsg ["black", "flake8", "isort"]
        ∈ [ExitMessage.missingMsg ["black", "flake8", "isort"],
           ExitMessage.incorrectMsg ["black", "flake8", "isort"]] :=
  ⟨by rfl,
    ((c2_validate_combined []).2
      [ExitMessage.missingMsg ["black", "flake8", "isort"],
       ExitMessage.incorrectMsg ["black", "flake8", "isort"]] (by rfl)).1 (by decide)⟩

/-! ### Claim C3 -/

/-- An entry of the registry is what its name looks up to. -/
theorem registry_lookup_of_mem {name : String} {hook : PreCommitHookMetadata}
    (h : (name, hook) ∈ registry) : registry.lookup name = some hook := by
  fin_cases h <;> rfl

/-- Every non-pseudo registry name is among the validator's hook names. -/
theorem mem_hook_names_of_mem {name : String} {hook : PreCommitHookMetadata}
    (h : (name, hook) ∈ registry) (hne : name ≠ "pre-commit-hooks") :
    name ∈ hook_names := by
  fin_cases h <;> first | decide | exact absurd rfl hne

/-- A preference document that is valid except that the mandatory isort
entry has been removed. -/
def docMissingIsort : ConfigDoc :=
  [ ("black", ConfigValue.bool true)
  , ("check-xml", ConfigValue.bool true)
  , ("check-yaml", ConfigValue.bool true)
  , ("clang-format", ConfigValue.bool false)
  , ("flake8", ConfigValue.bool true)
  , ("format-xmllint", ConfigValue.bool false)
  , ("mypy", ConfigValue.bool true)
  , ("ruff", ConfigValue.bool false)
  , ("towncrier", ConfigValue.bool false)
  ]

/-- Counterexample to C3 as stated: the mandatory hook isort, absent from
the document, appears in the Incorrect list as well as in the Missing
list — not only in the Missing list. -/
theorem c3_counterexample :
    docMissingIsort.lookup "isort" = none
    ∧ ("isort", isortHook) ∈ registry
    ∧ isortHook.rule_type = RuleType.MANDATORY
    ∧ "isort" ∈ check_missing_hooks docMissingIsort hook_names
    ∧ "isort" ∈ check_incorrect_config_options docMissingIsort hook_names := by
  refine ⟨by decide, by decide, rfl, by decide, by decide⟩

/-- C3 (amended): for every preference document with unique keys and
every non-pseudo registry hook: a mandatory hook name absent from the
document appears in both the Missing and the Incorrect lists and not in
the Additional list; a mandatory hook name present but mapped to a value
other than True appears only in the Incorrect list; a document key
matching no hook name appears only in the Additional list; and an absent
OPT_IN or OPT_OUT hook produces no finding at all. -/
theorem c3_validator_categories :
    ∀ (config : ConfigDoc) (name : String) (hook : PreCommitHookMetadata),
      (config.map Prod.fst).Nodup → (name, hook) ∈ registry →
      (hook.rule_type = RuleType.MANDATORY → name ≠ "pre-commit-hooks" →
        config.lookup name = none →
        name ∈ check_missing_hooks config hook_names
        ∧ name ∈ check_incorrect_config_options config hook_names
        ∧ name ∉ check_additional_hooks config hook_names)
      ∧ (∀ v : ConfigValue, hook.rule_type = RuleType.MANDATORY →
          name ≠ "pre-commit-hooks" → config.lookup name = some v → v.isPyTrue = false →
          name ∉ check_missing_hooks config hook_names
          ∧ name ∈ check_incorrect_config_options config hook_names
          ∧ name ∉ check_additional_hooks config hook_names)
      ∧ (hook.rule_type ≠ RuleType.MANDATORY → config.lookup name = none →
          name ∉ check_missing_hooks config hook_names
          ∧ name ∉ check_incorrect_config_options config hook_names
          ∧ name ∉ check_additional_hooks config hook_names)
      ∧ (∀ key, key ∈ config.map Prod.fst → key ∉ hook_names →
          key ∈ check_additional_hooks config hook_names
          ∧ key ∉ check_missing_hooks config hook_names
          ∧ key ∉ check_incorrect_config_options config hook_names) := by
  intro config name hook hnodup hmem
  have hlook := registry_lookup_of_mem hmem
  refine ⟨?_, ?_, ?_, ?_⟩
  · intro hman hne hlk
    have hin : name ∈ hook_names := mem_hook_names_of_mem hmem hne
    have hany1 := any_key_false_of_lookup_none hlk
    have hany2 :=
      any_key_false_of_not_mem (not_mem_keys_of_lookup_none hlk) (fun o => o.2.isPyTrue)
    refine ⟨mem_check_missing_iff.mpr ⟨hin, ?_⟩,
      mem_check_incorrect_iff.mpr ⟨hin, ?_⟩, ?_⟩
    · unfold missingPred
      rw [hlook]
      simp [hman, hany1]
    · unfold incorrectPred
      rw [hlook]
      simp [hman, hany2]
    · intro hadd
      exact (not_mem_keys_of_lookup_none hlk) (mem_keys_of_mem_check_additional hadd)
  · intro v hman hne hlk hv
    have hin : name ∈ hook_names := mem_hook_names_of_mem hmem hne
    have hany1 := any_key_true_of_lookup_some hlk
    have hany2 := any_true_val_of_nodup hnodup hlk
    refine ⟨?_, mem_check_incorrect_iff.mpr ⟨hin, ?_⟩, ?_⟩
    · intro h
      obtain ⟨_, hp⟩ := mem_check_missing_iff.mp h
      unfold missingPred at hp
      rw [hlook] at hp
      simp [hman, hany1] at hp
    · unfold incorrectPred
      rw [hlook]
      simp [hman, hany2, hv]
    · intro hadd
      obtain ⟨o, _, hop, ho1⟩ := mem_check_additional_iff.mp hadd
      have h2 := List.all_eq_true.mp hop name hin
      rw [ho1] at h2
      simp at h2
  · intro hnm hlk
    refine ⟨?_, ?_, ?_⟩
    · intro h
      obtain ⟨_, hp⟩ := mem_check_missing_iff.mp h
      unfold missingPred at hp
      rw [hlook] at hp
      simp [hnm] at hp
    · intro h
      obtain ⟨_, hp⟩ := mem_check_incorrect_iff.mp h
      unfold incorrectPred at hp
      rw [hlook] at hp
      simp [hnm] at hp
    · intro h
      exact (not_mem_keys_of_lookup_none hlk) (mem_keys_of_mem_check_additional h)
  · intro key hkey hknot
    refine ⟨mem_check_additional_of_not_hook_name hkey hknot, ?_, ?_⟩
    · intro h
      exact hknot (mem_check_missing_iff.mp h).1
    · intro h
      exact hknot (mem_check_incorrect_iff.mp h).1

/-- Witness for C3 (amended): on the document missing isort, the isort
hook is reported missing. -/
theorem c3_witness :
    "isort" ∈ check_missing_hooks docMissingIsort hook_names :=
  ((c3_validator_categories docMissingIsort "isort" isortHook (by decide)
      (by decide)).1 rfl (by decide) (by decide)).1

/-! ### Claim C6 -/

/-- An args namespace as produced by `parse_args`: `--create` set and all
five optional-hook override attributes present with the given values. -/
def mkOverrideArgs (noMypy withClangFormat withFormatXmllint withRuff withTowncrier : Bool) :
    Args :=
  { create := true
    flags := [ ("no_mypy", noMypy)
             , ("with_clang_format", withClangFormat)
             , ("with_format_xmllint", withFormatXmllint)
             , ("with_ruff", withRuff)
             , ("with_towncrier", withTowncrier) ] }

/-- C6: for every combination of override flags, the preference document
written by `_create_config_file` consists of one `name: true|false` line
per entry (the ten names of `hook_names`), emitted in sorted order, and
parsing it back always passes `validate_config_file_contents` with zero
findings (no error raised). -/
theorem c6_create_validate_roundtrip :
    ∀ noMypy withClangFormat withFormatXmllint withRuff withTowncrier : Bool,
      pySorted (create_config_file_lines
          (mkOverrideArgs noMypy withClangFormat withFormatXmllint withRuff withTowncrier))
        = create_config_file_lines
            (mkOverrideArgs noMypy withClangFormat withFormatXmllint withRuff withTowncrier)
      ∧ (create_config_file_lines
          (mkOverrideArgs noMypy withClangFormat withFormatXmllint withRuff
            withTowncrier)).length = hook_names.length
      ∧ (∀ n ∈ hook_names, ∃ b : Bool,
          (n ++ ": " ++ (if b then "true" else "false")) ∈
            create_config_file_lines
              (mkOverrideArgs noMypy withClangFormat withFormatXmllint withRuff
                withTowncrier))
      ∧ (validate_config_file_contents (parse_flat_yaml
          (create_config_file_lines
            (mkOverrideArgs noMypy withClangFormat withFormatXmllint withRuff
              withTowncrier)))).isOk = true := by
  decide

/-- Witness for C6: with all override flags off, the created document has
a line for the black hook. -/
theorem c6_witness :
    ("black" ++ ": " ++ "true")
        ∈ create_config_file_lines (mkOverrideArgs false false false false false)
    ∨ ("black" ++ ": " ++ "false")
        ∈ create_config_file_lines (mkOverrideArgs false false false false false) := by
  rcases (c6_create_validate_roundtrip false false false false false).2.2.1 "black"
    (by decide) with ⟨b, hb⟩
  cases b
  · right
    simpa using hb
  · left
    simpa using hb

/-! ### Claim C7 -/

/-- The created preference document only depends on the five override
attributes the fixed registry consults, each read with the default
`_create_config_file` uses. -/
theorem create_lines_generalize (args : Args) :
    create_config_file_lines args =
      create_config_file_lines (mkOverrideArgs
        (getattrB args "no_mypy" false)
        (getattrB args "with_clang_format" true)
        (getattrB args "with_format_xmllint" true)
        (getattrB args "with_ruff" true)
        (getattrB args "with_towncrier" true)) := rfl

/-- Any preference document `_create_config_file` produces has no
`pre-commit-hooks` key, for every combination of the override
attributes. -/
theorem pseudo_not_in_created_doc :
    ∀ b1 b2 b3 b4 b5 : Bool,
      ∀ kv ∈ parse_flat_yaml (create_config_file_lines (mkOverrideArgs b1 b2 b3 b4 b5)),
        kv.1 ≠ "pre-commit-hooks" := by
  decide

/-- Every preference document `_create_config_file` produces carries the
fixed sub-check entries `check-yaml: true` and `check-xml: true`
(lines 212-215), for every combination of the override attributes. -/
theorem subchecks_in_created_doc :
    ∀ b1 b2 b3 b4 b5 : Bool,
      ("check-yaml", ConfigValue.bool true)
          ∈ parse_flat_yaml (create_config_file_lines (mkOverrideArgs b1 b2 b3 b4 b5))
      ∧ ("check-xml", ConfigValue.bool true)
          ∈ parse_flat_yaml (create_config_file_lines (mkOverrideArgs b1 b2 b3 b4 b5)) := by
  decide

/-- Counterexample to C7 as stated: the tool's produced preference
documents do contain entries for the pseudo-entry's sub-checks —
`_create_config_file` (lines 212-215) writes `check-yaml: true` and
`check-xml: true` into the document it creates for default args, and the
validator requires them in the sense that it recognizes exactly these
keys in place of the pseudo-entry. -/
theorem c7_counterexample :
    ("check-yaml", ConfigValue.bool true)
        ∈ parse_flat_yaml (create_config_file_lines (mkOverrideArgs false false false false false))
    ∧ ("check-xml", ConfigValue.bool true)
        ∈ parse_flat_yaml (create_config_file_lines (mkOverrideArgs false false false false false))
    ∧ "check-yaml" ∈ hook_names
    ∧ "check-xml" ∈ hook_names := by
  decide

/-- C7 (amended): the always-on pseudo-entry `pre-commit-hooks` has no
preference-file representation under its own name and no enable/disable
flag: no document the tool produces contains an entry keyed by the
pseudo-entry's name — though every produced document carries the fixed
sub-check entries `check-yaml: true` and `check-xml: true` — a document
containing the pseudo-entry's key is rejected as an additional line by
the validator, `parse_args` registers no `--no-pre-commit-hooks` or
`--with-pre-commit-hooks` flag, and its pipeline fragment is contributed
unconditionally. -/
theorem c7_pseudo_entry_always_on :
    ∀ (args : Args) (doc : ConfigDoc),
      (∀ kv ∈ parse_flat_yaml (create_config_file_lines args), kv.1 ≠ "pre-commit-hooks")
      ∧ ("check-yaml", ConfigValue.bool true)
          ∈ parse_flat_yaml (create_config_file_lines args)
      ∧ ("check-xml", ConfigValue.bool true)
          ∈ parse_flat_yaml (create_config_file_lines args)
      ∧ preCommitHooksHook.pre_commit_config.data <:+:
          (generate_pre_commit_conf_string args).data
      ∧ "--no-pre-commit-hooks" ∉ parse_args_hook_flag_names
      ∧ "--with-pre-commit-hooks" ∉ parse_args_hook_flag_names
      ∧ (∀ v : ConfigValue, ("pre-commit-hooks", v) ∈ doc →
          "pre-commit-hooks" ∈ check_additional_hooks doc hook_names) := by
  intro args doc
  refine ⟨?_, ?_, ?_,
    @mandatory_fragment_seg args ("pre-commit-hooks", preCommitHooksHook) (by decide) rfl,
    by decide, by decide, ?_⟩
  · rw [create_lines_generalize args]
    exact pseudo_not_in_created_doc _ _ _ _ _
  · rw [create_lines_generalize args]
    exact (subchecks_in_created_doc _ _ _ _ _).1
  · rw [create_lines_generalize args]
    exact (subchecks_in_created_doc _ _ _ _ _).2
  · intro v hv
    exact mem_check_additional_of_not_hook_name
      (List.mem_map.mpr ⟨("pre-commit-hooks", v), hv, rfl⟩) (by decide)

/-- Witness for C7: a document carrying a `pre-commit-hooks` key has it
reported as an additional line. -/
theorem c7_witness :
    "pre-commit-hooks" ∈
      check_additional_hooks [("pre-commit-hooks", ConfigValue.bool true)] hook_names :=
  (c7_pseudo_entry_always_on {} [("pre-commit-hooks", ConfigValue.bool true)]).2.2.2.2.2.2
    (ConfigValue.bool true) (by decide)

/-! ### Claim C9 -/

/-- Boolean containment on token lists is list membership. -/
theorem contains_iff_mem_str {l : List String} {s : String} :
    l.contains s = true ↔ s ∈ l := List.elem_iff

/-- On the fixed registry, the `no_mypy` attribute `parse_args` builds is
exactly whether `--no-mypy` was among the tokens. -/
theorem parse_args_no_mypy_attr (c : Bool) (tokens : List String) :
    getattrB
      { create := c
        flags := registry.foldl (parseFlagsStep tokens) [] } "no_mypy" false
      = tokens.contains "--no-mypy" := rfl

/-- C9: `parse_args` enforces the override-flags-require-create rule only
for the mypy hook: it raises a `ValueError` exactly when `--no-mypy` is
given without `--create`, while every other opt-in or opt-out override
flag given without `--create` is accepted without error. -/
theorem c9_only_no_mypy_requires_create :
    (∀ tokens : List String,
      (parse_args tokens).isOk = false ↔ ("--no-mypy" ∈ tokens ∧ "--create" ∉ tokens))
    ∧ (parse_args ["--with-clang-format"]).isOk = true
    ∧ (parse_args ["--with-format-xmllint"]).isOk = true
    ∧ (parse_args ["--with-ruff"]).isOk = true
    ∧ (parse_args ["--with-towncrier"]).isOk = true := by
  refine ⟨?_, by decide, by decide, by decide, by decide⟩
  intro tokens
  by_cases h1 : "--no-mypy" ∈ tokens <;> by_cases h2 : "--create" ∈ tokens <;>
    simp [parse_args, parse_args_no_mypy_attr, contains_iff_mem_str, h1, h2,
      Except.isOk, Except.toBool]

/-! ### Claim C10 -/

/-- C10: with an existing preference file, `--create` makes
`create_or_report_missing_config_file` exit with status 1 and leave the
file's contents unchanged; without `--create` it returns normally with no
error and no modification. -/
theorem c10_existing_file_behavior :
    ∀ (args : Args) (prev : List String),
      (args.create = true →
        create_or_report_missing_config_file true args
            = CreateConfigOutcome.exitedWithCode 1
        ∧ config_file_after_create_or_report true prev args = prev)
      ∧ (args.create = false →
        create_or_report_missing_config_file true args
            = CreateConfigOutcome.returnedNormally
        ∧ config_file_after_create_or_report true prev args = prev) := by
  intro args prev
  constructor <;> intro h <;>
    simp [create_or_report_missing_config_file, config_file_after_create_or_report, h]

/-- Witness for C10 at concrete args, in both create modes. -/
theorem c10_witness :
    create_or_report_missing_config_file true { create := true }
        = CreateConfigOutcome.exitedWithCode 1
    ∧ create_or_report_missing_config_file true { create := false }
        = CreateConfigOutcome.returnedNormally :=
  ⟨((c10_existing_file_behavior { create := true } []).1 rfl).1,
   ((c10_existing_file_behavior { create := false } []).2 rfl).1⟩

/-! ### Claim C8 -/

/-- The block one considered entry appends to the ignore file: nothing
when it already occurs in the prior contents, the entry plus a newline
otherwise. -/
def gitignoreBlock (contents : List Char) (e : List Char) : List Char :=
  if e <:+: contents then [] else e ++ ['\n']

/-- The separating newline `update_dot_gitignore` writes first when the
prior contents are non-empty and do not end in a newline. -/
def gitignoreNewline (contents : List Char) : List Char :=
  if contents ≠ [] ∧ contents.getLast? ≠ some '\n' then ['\n'] else []

/-- `gitignoreStep` appends exactly the block of the entry. -/
theorem gitignoreStep_eq (contents : List Char) (acc e : List Char) :
    gitignoreStep contents acc e = acc ++ gitignoreBlock contents e := by
  unfold gitignoreStep gitignoreBlock
  split
  · simp
  · rw [List.append_assoc]

/-- `update_dot_gitignore` is the prior contents, then the separating
newline if needed, then the blocks of the considered entries in order. -/
theorem update_gitignore_eq (contents : List Char) :
    update_dot_gitignore contents =
      contents ++ gitignoreNewline contents
        ++ gitignore_entries.flatMap (gitignoreBlock contents) := by
  unfold update_dot_gitignore gitignoreNewline
  rw [foldl_append_of_step (gitignoreStep contents) (gitignoreBlock contents)
    (gitignoreStep_eq contents)]
  split <;> simp

/-- The concatenated blocks are empty or end in a newline. -/
theorem gitignore_blocks_end_newline (contents : List Char) :
    ∀ L : List (List Char),
      L.flatMap (gitignoreBlock contents) = []
      ∨ (L.flatMap (gitignoreBlock contents)).getLast? = some '\n' := by
  intro L
  induction L with
  | nil => exact Or.inl rfl
  | cons e L ih =>
    rw [List.flatMap_cons]
    rcases ih with hrest | hrest
    · rw [hrest, List.append_nil]
      unfold gitignoreBlock
      split
      · exact Or.inl rfl
      · right
        simp
    · right
      rw [List.getLast?_append_of_ne_nil]
      · exact hrest
      · intro hn
        rw [hn] at hrest
        simp at hrest

/-- The updated ignore file always ends in a newline. -/
theorem update_gitignore_ends_newline (contents : List Char) :
    (update_dot_gitignore contents).getLast? = some '\n' := by
  rw [update_gitignore_eq]
  rcases gitignore_blocks_end_newline contents gitignore_entries with hflat | hflat
  · -- nothing appended: the pipeline entry already occurs, so the prior
    -- contents are non-empty
    have hb : gitignoreBlock contents PRE_COMMIT_CONFIG_FILE_NAME.data = [] := by
      unfold gitignore_entries at hflat
      rw [List.flatMap_cons] at hflat
      exact (List.append_eq_nil.mp hflat).1
    have hpipe : PRE_COMMIT_CONFIG_FILE_NAME.data <:+: contents := by
      unfold gitignoreBlock at hb
      by_cases hp : PRE_COMMIT_CONFIG_FILE_NAME.data <:+: contents
      · exact hp
      · rw [if_neg hp] at hb
        simp at hb
    have hcne : contents ≠ [] := by
      intro hnil
      rw [hnil] at hpipe
      obtain ⟨s, t, hst⟩ := hpipe
      have h2 : PRE_COMMIT_CONFIG_FILE_NAME.data = [] := by
        rcases List.append_eq_nil.mp ((List.append_eq_nil).mp (by simpa using hst)).1
          with ⟨-, -⟩
        exact ((List.append_eq_nil.mp (List.append_eq_nil.mp (by simpa using hst)).1).2)
      exact absurd h2 (by decide)
    rw [hflat, List.append_nil]
    unfold gitignoreNewline
    split
    · simp
    · rename_i h
      rw [not_and_or] at h
      rcases h with h | h
      · exact absurd hcne (by simpa using h)
      · rw [List.append_nil]
        simpa using h
  · rw [List.getLast?_append_of_ne_nil]
    · exact hflat
    · intro hn
      rw [hn] at hflat
      simp at hflat

/-- Every considered entry occurs in the updated ignore file. -/
theorem gitignore_entry_seg (contents : List Char) :
    ∀ e ∈ gitignore_entries, e <:+: update_dot_gitignore contents := by
  intro e he
  rw [update_gitignore_eq]
  by_cases hc : e <:+: contents
  · exact seg_append_right _ (seg_append_right _ hc)
  · have hb : gitignoreBlock contents e = e ++ ['\n'] := by
      unfold gitignoreBlock
      rw [if_neg hc]
    have h1 : e <:+: gitignoreBlock contents e := by
      rw [hb]
      exact ⟨[], ['\n'], by simp⟩
    have h2 : gitignoreBlock contents e <:+:
        gitignore_entries.flatMap (gitignoreBlock contents) :=
      seg_block_of_mem (gitignoreBlock contents) he
    exact seg_append_left _ (h1.trans h2)

/-- C8: `update_dot_gitignore` preserves the prior contents as a prefix
and appends, one per line and in order, exactly the considered entries
(the pipeline config filename and the hooks' config file names) that do
not already occur as substrings of the prior contents; consequently the
operation is idempotent. -/
theorem c8_gitignore_update :
    ∀ contents : List Char,
      contents <+: update_dot_gitignore contents
      ∧ update_dot_gitignore contents =
          contents
          ++ (if contents ≠ [] ∧ contents.getLast? ≠ some '\n' then ['\n'] else [])
          ++ gitignore_entries.flatMap
              (fun e => if e <:+: contents then [] else e ++ ['\n'])
      ∧ update_dot_gitignore (update_dot_gitignore contents) =
          update_dot_gitignore contents := by
  intro c
  refine ⟨?_, update_gitignore_eq c, ?_⟩
  · rw [update_gitignore_eq]
    exact ⟨gitignoreNewline c ++ gitignore_entries.flatMap (gitignoreBlock c),
      (List.append_assoc _ _ _).symm⟩
  · rw [update_gitignore_eq (update_dot_gitignore c)]
    have h1 : gitignoreNewline (update_dot_gitignore c) = [] := by
      unfold gitignoreNewline
      rw [if_neg]
      intro h
      exact h.2 (update_gitignore_ends_newline c)
    have h2 : gitignore_entries.flatMap (gitignoreBlock (update_dot_gitignore c)) = [] := by
      apply flatMap_eq_nil_of_forall
      intro e he
      unfold gitignoreBlock
      rw [if_pos (gitignore_entry_seg c e he)]
    rw [h1, h2]
    simp

end TsPreCommitConf
